import Mathlib

/-!
Verification of the GHOST geometry and calibration utilities
(`ghost/utils.py`, `ghost/calib.py`).

The Python code operates on numpy double-precision floats; the embedding
works over `ℝ`, treating each floating operation as its exact real
counterpart.  Definitions mirror the Python source line by line; numpy
list/array operations become `List` operations over `ℝ`.
-/

open Real

/-- A 3D point, as one row of the `pandas.DataFrame` built by `gen_circle`. -/
structure Point3 where
  x : ℝ
  y : ℝ
  z : ℝ

/-- A point DataFrame with columns `x`, `y`, `z` (as built by `gen_circle`
and consumed by `transform_points`).  Each field is one column. -/
structure PointsDf where
  x : List ℝ
  y : List ℝ
  z : List ℝ

/-- `np.linspace(0, 1, n)`: `n` evenly spaced samples, INCLUDING both
endpoints 0 and 1 (`numpy` default `endpoint=True`); the k-th entry is
`k/(n-1)`.  For `n = 1` numpy returns `[0.0]`, for `n = 0` the empty array. -/
noncomputable def linspace01 (n : ℕ) : List ℝ :=
  if n ≤ 1 then List.replicate n 0
  else (List.range n).map (fun (k : ℕ) => (k : ℝ) / ((n : ℝ) - 1))

/-- `gen_circle(center, r, axis, npoints)` from `ghost/utils.py` (lines
165-201): points on a circle in 3D space, first point the center.
`t = np.linspace(0,1,npoints)`; each branch of the `if axis == ...`
chain fills the three columns; a `pandas.DataFrame` is built from
`[center[0], *x]` etc.  When `axis` is none of `'x'`, `'y'`, `'z'`,
no branch assigns `x`, `y`, `z` and the Python function fails with an
`UnboundLocalError` at the DataFrame construction; this failure (no
point set is ever produced) is modelled by `none`. -/
noncomputable def gen_circle (center : Point3) (r : ℝ) (axis : String) (npoints : ℕ) :
    Option PointsDf :=
  let t := linspace01 npoints
  if axis = "x" then
    some { x := center.x :: t.map (fun _ => center.x)
         , y := center.y :: t.map (fun s => r * Real.cos (s * 2 * π) + center.y)
         , z := center.z :: t.map (fun s => r * Real.sin (s * 2 * π) + center.z) }
  else if axis = "y" then
    some { x := center.x :: t.map (fun s => r * Real.cos (s * 2 * π) + center.x)
         , y := center.y :: t.map (fun _ => center.y)
         , z := center.z :: t.map (fun s => r * Real.sin (s * 2 * π) + center.z) }
  else if axis = "z" then
    some { x := center.x :: t.map (fun s => r * Real.sin (s * 2 * π) + center.x)
         , y := center.y :: t.map (fun s => r * Real.cos (s * 2 * π) + center.y)
         , z := center.z :: t.map (fun _ => center.z) }
  else none

/-- Extract the DataFrame from an optional result (empty frame if absent). -/
noncomputable def dfOf (o : Option PointsDf) : PointsDf :=
  o.getD { x := [], y := [], z := [] }

/-- Row `i` of a point DataFrame, as a 3D point. -/
noncomputable def pointOf (df : PointsDf) (i : ℕ) : Point3 :=
  { x := df.x.getD i 0, y := df.y.getD i 0, z := df.z.getD i 0 }

/-- Euclidean distance between two 3D points. -/
noncomputable def dist3 (p q : Point3) : ℝ :=
  Real.sqrt ((p.x - q.x) ^ 2 + (p.y - q.y) ^ 2 + (p.z - q.z) ^ 2)

/-- C7: for every axis argument other than `'x'`, `'y'`, `'z'`, `gen_circle`
fails (the unmatched `if`/`elif` chain leaves the coordinate variables
unassigned, so the call raises instead of returning a point set): no
point set with undefined coordinates is ever produced. -/
theorem invalid_axis_fails (center : Point3) (r : ℝ) (axis : String) (n : ℕ)
    (hx : axis ≠ "x") (hy : axis ≠ "y") (hz : axis ≠ "z") :
    gen_circle center r axis n = none := by
  simp [gen_circle, hx, hy, hz]

theorem invalid_axis_fails_witness :
    ("w" : String) ≠ "x" ∧ gen_circle ⟨0, 0, 0⟩ 1 "w" 5 = none :=
  ⟨by decide, invalid_axis_fails ⟨0, 0, 0⟩ 1 "w" 5 (by decide) (by decide) (by decide)⟩

theorem linspace01_length (n : ℕ) : (linspace01 n).length = n := by
  unfold linspace01
  split
  · simp
  · rw [List.length_map, List.length_range]

theorem getD_map_of_lt (f : ℝ → ℝ) :
    ∀ (l : List ℝ) (k : ℕ), k < l.length → ∀ d d' : ℝ, (l.map f).getD k d = f (l.getD k d')
  | _ :: _, 0, _, _, _ => rfl
  | _ :: l, k + 1, h, d, d' => getD_map_of_lt f l k (by simpa using h) d d'

theorem sqrt_circle_eq (r u w₁ w₂ w₃ : ℝ) (hr : 0 ≤ r) :
    Real.sqrt ((w₁ - w₁) ^ 2 + (r * Real.cos u + w₂ - w₂) ^ 2 +
      (r * Real.sin u + w₃ - w₃) ^ 2) = r := by
  have h2 : (w₁ - w₁) ^ 2 + (r * Real.cos u + w₂ - w₂) ^ 2 +
      (r * Real.sin u + w₃ - w₃) ^ 2 = r ^ 2 * (Real.sin u ^ 2 + Real.cos u ^ 2) := by
    ring
  rw [h2, Real.sin_sq_add_cos_sq, mul_one, Real.sqrt_sq hr]

theorem sqrt_circle_eq_y (r u w₁ w₂ w₃ : ℝ) (hr : 0 ≤ r) :
    Real.sqrt ((r * Real.cos u + w₁ - w₁) ^ 2 + (w₂ - w₂) ^ 2 +
      (r * Real.sin u + w₃ - w₃) ^ 2) = r := by
  have h2 : (r * Real.cos u + w₁ - w₁) ^ 2 + (w₂ - w₂) ^ 2 +
      (r * Real.sin u + w₃ - w₃) ^ 2 = r ^ 2 * (Real.sin u ^ 2 + Real.cos u ^ 2) := by
    ring
  rw [h2, Real.sin_sq_add_cos_sq, mul_one, Real.sqrt_sq hr]

theorem sqrt_circle_eq_z (r u w₁ w₂ w₃ : ℝ) (hr : 0 ≤ r) :
    Real.sqrt ((r * Real.sin u + w₁ - w₁) ^ 2 + (r * Real.cos u + w₂ - w₂) ^ 2 +
      (w₃ - w₃) ^ 2) = r := by
  have h2 : (r * Real.sin u + w₁ - w₁) ^ 2 + (r * Real.cos u + w₂ - w₂) ^ 2 +
      (w₃ - w₃) ^ 2 = r ^ 2 * (Real.sin u ^ 2 + Real.cos u ^ 2) := by
    ring
  rw [h2, Real.sin_sq_add_cos_sq, mul_one, Real.sqrt_sq hr]

/-- C4: for every axis among `x`, `y`, `z`, every center, every radius `r ≥ 0`
and every `npoints = N`, `gen_circle` returns a point set of exactly `N + 1`
points (each column has length `N + 1`), whose row 0 is the given center,
and every row `1 ≤ i ≤ N` lies at Euclidean distance `r` from the center
(exactly, over the reals). -/
theorem ring_points_spec (c : Point3) (r : ℝ) (axis : String) (n : ℕ)
    (hr : 0 ≤ r) (ha : axis = "x" ∨ axis = "y" ∨ axis = "z") :
    gen_circle c r axis n = some (dfOf (gen_circle c r axis n)) ∧
    (dfOf (gen_circle c r axis n)).x.length = n + 1 ∧
    (dfOf (gen_circle c r axis n)).y.length = n + 1 ∧
    (dfOf (gen_circle c r axis n)).z.length = n + 1 ∧
    pointOf (dfOf (gen_circle c r axis n)) 0 = c ∧
    ∀ i, 1 ≤ i → i ≤ n → dist3 (pointOf (dfOf (gen_circle c r axis n)) i) c = r := by
  have hlen := linspace01_length n
  rcases ha with h | h | h <;> subst h
  · rw [show gen_circle c r "x" n =
        some { x := c.x :: (linspace01 n).map (fun _ => c.x)
             , y := c.y :: (linspace01 n).map (fun s => r * Real.cos (s * 2 * π) + c.y)
             , z := c.z :: (linspace01 n).map (fun s => r * Real.sin (s * 2 * π) + c.z) }
        from by simp [gen_circle]]
    refine ⟨rfl, by simp [dfOf, hlen], by simp [dfOf, hlen], by simp [dfOf, hlen],
      by simp [dfOf, pointOf], ?_⟩
    intro i hi1 hin
    obtain ⟨k, rfl⟩ : ∃ k, i = k + 1 := ⟨i - 1, (Nat.succ_pred_eq_of_pos hi1).symm⟩
    have hk : k < (linspace01 n).length := by omega
    simp only [dfOf, Option.getD_some, pointOf, dist3, List.getD_cons_succ]
    rw [getD_map_of_lt _ _ _ hk _ 0, getD_map_of_lt _ _ _ hk _ 0, getD_map_of_lt _ _ _ hk _ 0]
    exact sqrt_circle_eq r _ c.x c.y c.z hr
  · rw [show gen_circle c r "y" n =
        some { x := c.x :: (linspace01 n).map (fun s => r * Real.cos (s * 2 * π) + c.x)
             , y := c.y :: (linspace01 n).map (fun _ => c.y)
             , z := c.z :: (linspace01 n).map (fun s => r * Real.sin (s * 2 * π) + c.z) }
        from by simp [gen_circle]]
    refine ⟨rfl, by simp [dfOf, hlen], by simp [dfOf, hlen], by simp [dfOf, hlen],
      by simp [dfOf, pointOf], ?_⟩
    intro i hi1 hin
    obtain ⟨k, rfl⟩ : ∃ k, i = k + 1 := ⟨i - 1, (Nat.succ_pred_eq_of_pos hi1).symm⟩
    have hk : k < (linspace01 n).length := by omega
    simp only [dfOf, Option.getD_some, pointOf, dist3, List.getD_cons_succ]
    rw [getD_map_of_lt _ _ _ hk _ 0, getD_map_of_lt _ _ _ hk _ 0, getD_map_of_lt _ _ _ hk _ 0]
    exact sqrt_circle_eq_y r _ c.x c.y c.z hr
  · rw [show gen_circle c r "z" n =
        some { x := c.x :: (linspace01 n).map (fun s => r * Real.sin (s * 2 * π) + c.x)
             , y := c.y :: (linspace01 n).map (fun s => r * Real.cos (s * 2 * π) + c.y)
             , z := c.z :: (linspace01 n).map (fun _ => c.z) }
        from by simp [gen_circle]]
    refine ⟨rfl, by simp [dfOf, hlen], by simp [dfOf, hlen], by simp [dfOf, hlen],
      by simp [dfOf, pointOf], ?_⟩
    intro i hi1 hin
    obtain ⟨k, rfl⟩ : ∃ k, i = k + 1 := ⟨i - 1, (Nat.succ_pred_eq_of_pos hi1).symm⟩
    have hk : k < (linspace01 n).length := by omega
    simp only [dfOf, Option.getD_some, pointOf, dist3, List.getD_cons_succ]
    rw [getD_map_of_lt _ _ _ hk _ 0, getD_map_of_lt _ _ _ hk _ 0, getD_map_of_lt _ _ _ hk _ 0]
    exact sqrt_circle_eq_z r _ c.x c.y c.z hr

theorem ring_points_spec_witness :
    (0 : ℝ) ≤ 2 ∧ (("x" : String) = "x" ∨ ("x" : String) = "y" ∨ ("x" : String) = "z") ∧
    (gen_circle ⟨1, 2, 3⟩ 2 "x" 5 = some (dfOf (gen_circle ⟨1, 2, 3⟩ 2 "x" 5)) ∧
     (dfOf (gen_circle ⟨1, 2, 3⟩ 2 "x" 5)).x.length = 5 + 1 ∧
     (dfOf (gen_circle ⟨1, 2, 3⟩ 2 "x" 5)).y.length = 5 + 1 ∧
     (dfOf (gen_circle ⟨1, 2, 3⟩ 2 "x" 5)).z.length = 5 + 1 ∧
     pointOf (dfOf (gen_circle ⟨1, 2, 3⟩ 2 "x" 5)) 0 = ⟨1, 2, 3⟩ ∧
     ∀ i, 1 ≤ i → i ≤ 5 → dist3 (pointOf (dfOf (gen_circle ⟨1, 2, 3⟩ 2 "x" 5)) i) ⟨1, 2, 3⟩ = 2) :=
  ⟨by norm_num, Or.inl rfl,
    ring_points_spec ⟨1, 2, 3⟩ 2 "x" 5 (by norm_num) (Or.inl rfl)⟩

/-- `np.arange(-n//2, n//2)` as used by `make_circle`: by Python floor
division `-n//2 = -((n+1)/2)` (e.g. `-5//2 = -3`), so the values are
`i - (n+1)/2` for `i = 0, …, n-1` — always exactly `n` values. -/
def arangeC (n : ℕ) : List ℤ :=
  (List.range n).map (fun (i : ℕ) => (i : ℤ) - ((n : ℤ) + 1) / 2)

/-- The distance array `D` of `make_circle` (`ghost/utils.py` lines 76-78):
`X, Y = np.meshgrid(np.arange(-nx//2, nx//2) + center[0],
np.arange(-ny//2, ny//2) + center[1])` gives arrays of shape `(ny, nx)`
with `X[i,j]` drawn from the first argument (length `nx`) and `Y[i,j]`
from the second (length `ny`); `D = np.sqrt(X**2 + Y**2)`. -/
noncomputable def circleD (nx ny : ℕ) (c : ℝ × ℝ) (i j : ℕ) : ℝ :=
  Real.sqrt ((((arangeC nx).getD j 0 : ℝ) + c.1) ^ 2 +
    (((arangeC ny).getD i 0 : ℝ) + c.2) ^ 2)

/-- The mask written by `circle[D < radius] = 1` over `circle = np.zeros(img_shape)`:
cell `(i, j)` is 1 exactly when `D[i, j] < radius` (strict), else 0. -/
noncomputable def circleMask (nx ny : ℕ) (radius : ℝ) (c : ℝ × ℝ) : ℕ → ℕ → ℝ :=
  fun i j => if circleD nx ny c i j < radius then 1 else 0

/-- `make_circle(img_shape, radius, center)` from `ghost/utils.py` (lines
63-81).  The boolean-mask assignment `circle[D < radius] = 1` is only valid
in numpy when the mask's shape equals the indexed array's shape; `D` has
shape `(ny, nx)` while `circle = np.zeros((nx, ny))`, so the call raises an
`IndexError` (modelled by `none`) unless `ny = nx`. -/
noncomputable def make_circle (shape : ℕ × ℕ) (radius : ℝ) (c : ℝ × ℝ) :
    Option (ℕ → ℕ → ℝ) :=
  if shape.2 = shape.1 then some (circleMask shape.1 shape.2 radius c) else none

/-- Number of 1-valued cells of an `nx × ny` mask. -/
noncomputable def maskOnes (nx ny : ℕ) (m : ℕ → ℕ → ℝ) : ℕ :=
  ((Finset.range nx ×ˢ Finset.range ny).filter (fun p => m p.1 p.2 = 1)).card

/-- Euclidean distance of the meshgrid point at cell `(i, j)` of the
`(64, 64)` grid from the center `(0, 0)`. -/
noncomputable def distToCenter64 (i j : ℕ) : ℝ :=
  Real.sqrt (((arangeC 64).getD j 0 : ℝ) ^ 2 + ((arangeC 64).getD i 0 : ℝ) ^ 2)

/-- The number of grid points of the `(64, 64)` grid at Euclidean distance
strictly less than 10 from the center `(0, 0)`. -/
noncomputable def gridCount64 : ℕ :=
  ((Finset.range 64 ×ˢ Finset.range 64).filter
    (fun p => distToCenter64 p.1 p.2 < 10)).card

theorem arangeC_getD (n j : ℕ) (h : j < n) :
    (arangeC n).getD j 0 = (j : ℤ) - ((n : ℤ) + 1) / 2 := by
  unfold arangeC
  rw [List.getD_eq_getElem?_getD, List.getElem?_map, List.getElem?_range h]
  rfl

/-- C5: for `make_circle(shape=(64,64), radius=10, center=(0,0))`, the count
of 1-valued cells of the returned mask equals exactly the count of grid
points at Euclidean distance strictly less than 10 from the center;
inclusion is strict `<`, so the cell at grid point `(10, 0)` (distance
exactly 10, cell `(32, 42)`) is excluded. -/
theorem mask_count_spec :
    make_circle (64, 64) 10 (0, 0) = some (circleMask 64 64 10 (0, 0)) ∧
    maskOnes 64 64 (circleMask 64 64 10 (0, 0)) = gridCount64 ∧
    ((arangeC 64).getD 42 0 : ℝ) = 10 ∧ ((arangeC 64).getD 32 0 : ℝ) = 0 ∧
    circleMask 64 64 10 (0, 0) 32 42 = 0 := by
  have h42 : ((arangeC 64).getD 42 0 : ℝ) = 10 := by
    rw [arangeC_getD 64 42 (by norm_num)]
    norm_num
  have h32 : ((arangeC 64).getD 32 0 : ℝ) = 0 := by
    rw [arangeC_getD 64 32 (by norm_num)]
    norm_num
  have hD : ∀ i j : ℕ, circleD 64 64 (0, 0) i j = distToCenter64 i j := by
    intro i j
    unfold circleD distToCenter64
    dsimp only
    rw [add_zero, add_zero]
  have hsq : Real.sqrt 100 = 10 := by
    rw [show (100 : ℝ) = 10 ^ 2 by norm_num]
    exact Real.sqrt_sq (by norm_num)
  refine ⟨rfl, ?_, h42, h32, ?_⟩
  · unfold maskOnes gridCount64
    refine congrArg Finset.card (Finset.filter_congr ?_)
    intro p _
    rw [show circleMask 64 64 10 (0, 0) p.1 p.2 =
        (if distToCenter64 p.1 p.2 < 10 then (1 : ℝ) else 0) from by
      unfold circleMask
      rw [hD p.1 p.2]]
    by_cases h : distToCenter64 p.1 p.2 < 10
    · simp [h]
    · simp [h]
  · unfold circleMask
    rw [hD 32 42]
    unfold distToCenter64
    rw [h42, h32]
    norm_num [hsq]

/-- C10 (implicit): `make_circle` only returns a mask for square shapes:
for `nx ≠ ny` the boolean-mask assignment has a `(ny, nx)`-shaped mask
against an `(nx, ny)`-shaped array and raises an `IndexError`; for
`nx = ny` it returns the mask. -/
theorem make_circle_square_only (nx ny : ℕ) (radius : ℝ) (c : ℝ × ℝ) :
    (nx ≠ ny → make_circle (nx, ny) radius c = none) ∧
    (nx = ny → make_circle (nx, ny) radius c = some (circleMask nx ny radius c)) := by
  constructor
  · intro h
    unfold make_circle
    rw [if_neg (fun hh => h hh.symm)]
  · intro h
    unfold make_circle
    rw [if_pos h.symm]

theorem make_circle_square_only_witness :
    ((2 : ℕ) ≠ 3 ∧ make_circle (2, 3) 10 (0, 0) = none) ∧
    ((5 : ℕ) = 5 ∧ make_circle (5, 5) 10 (0, 0) = some (circleMask 5 5 10 (0, 0))) :=
  ⟨⟨by decide, (make_circle_square_only 2 3 10 (0, 0)).1 (by decide)⟩,
   ⟨rfl, (make_circle_square_only 5 5 10 (0, 0)).2 rfl⟩⟩

/-- `get_ellipse(a, b, theta, x0, y0, n)` from `ghost/utils.py` (lines
265-286): boundary samples of an ellipse.  `t = np.linspace(0,1,n)*np.pi*2`,
then `x_el = a*cos(t)*cos(theta) - b*sin(theta)*sin(t) + x0` and
`y_el = a*sin(theta)*cos(t) + b*cos(theta)*sin(t) + y0`. -/
noncomputable def get_ellipse (a b θ x0 y0 : ℝ) (n : ℕ) : List ℝ × List ℝ :=
  let t := (linspace01 n).map (fun s => s * π * 2)
  ( t.map (fun u => a * Real.cos u * Real.cos θ - b * Real.sin θ * Real.sin u + x0)
  , t.map (fun u => a * Real.sin θ * Real.cos u + b * Real.cos θ * Real.sin u + y0) )

theorem linspace01_getD (n k : ℕ) (hn : 2 ≤ n) (hk : k < n) :
    (linspace01 n).getD k 0 = (k : ℝ) / ((n : ℝ) - 1) := by
  unfold linspace01
  rw [if_neg (by omega), List.getD_eq_getElem?_getD, List.getElem?_map,
    List.getElem?_range hk]
  rfl

/-- numpy `arctan2(y, x)` (quadrant-aware arctangent). -/
noncomputable def atan2 (y x : ℝ) : ℝ :=
  if 0 < x then Real.arctan (y / x)
  else if x < 0 then
    (if 0 ≤ y then Real.arctan (y / x) + π else Real.arctan (y / x) - π)
  else if 0 < y then π / 2
  else if y < 0 then -(π / 2)
  else 0

/-- The dictionary returned by `get_ellipse_params` (`ghost/utils.py`
line 263): the fitted conic coefficients plus the extracted canonical
ellipse parameters. -/
structure EllipseParams where
  conic : ℝ × ℝ × ℝ × ℝ × ℝ × ℝ
  a : ℝ
  b : ℝ
  x0 : ℝ
  y0 : ℝ
  theta : ℝ
  ecc : ℝ

/-- The `+` root of the `a,b = -np.sqrt(...*((A+C) ± np.sqrt(...)))/(B**2-4*A*C)`
line (`ghost/utils.py` line 257), assigned to `a`. -/
noncomputable def ellipse_a (A B C D E F : ℝ) : ℝ :=
  -Real.sqrt (2 * (A * E ^ 2 + C * D ^ 2 - B * D * E + (B ^ 2 - 4 * A * C) * F) *
    ((A + C) + Real.sqrt ((A - C) ^ 2 + B ^ 2))) / (B ^ 2 - 4 * A * C)

/-- The `-` root of the same line, assigned to `b`. -/
noncomputable def ellipse_b (A B C D E F : ℝ) : ℝ :=
  -Real.sqrt (2 * (A * E ^ 2 + C * D ^ 2 - B * D * E + (B ^ 2 - 4 * A * C) * F) *
    ((A + C) - Real.sqrt ((A - C) ^ 2 + B ^ 2))) / (B ^ 2 - 4 * A * C)

/-- The parameter-extraction tail of `get_ellipse_params` (`ghost/utils.py`
lines 255-263), taking the already-fitted conic coefficients
`A, B, C, D, E, F` as input (the fitting call on lines 251-254 is numerical
linear algebra, not embedded here).  The source computes the closed-form
values unconditionally — it contains no degeneracy check and no `raise` —
so a result dictionary is always returned; at degenerate inputs numpy's
division by zero and square root of a negative radicand yield non-finite
floats (`inf`/`nan`) with only a runtime warning.  The `Except` codomain is
used solely so the (non-)existence of an error outcome can be stated; the
code's only outcome is `Except.ok`. -/
noncomputable def get_ellipse_params_conic (A B C D E F : ℝ) :
    Except String EllipseParams :=
  Except.ok
    { conic := (A, B, C, D, E, F)
    , a := ellipse_a A B C D E F
    , b := ellipse_b A B C D E F
    , x0 := (2 * C * D - B * E) / (B ^ 2 - 4 * A * C)
    , y0 := (2 * A * E - B * D) / (B ^ 2 - 4 * A * C)
    , theta := 0.5 * atan2 (-B) (C - A)
    , ecc := Real.sqrt (1 - ellipse_b A B C D E F ^ 2 / ellipse_a A B C D E F ^ 2) }

/-- Whether an `Except` result is a success. -/
def exceptIsOk {ε α : Type _} : Except ε α → Bool
  | Except.ok _ => true
  | Except.error _ => false

/-- C3 counterexample: the conic `(A,B,C,D,E,F) = (1, 2, 1, 0, 0, -1)` is
degenerate (`B² - 4AC = 0`, parabolic type), yet parameter extraction
performs no check and still returns a result — numpy divides by zero and
emits `inf`/`nan` under a mere runtime warning — so no distinct
`DegenerateConic` error is ever reported. -/
theorem degenerate_conic_cex :
    (2 : ℝ) ^ 2 - 4 * 1 * 1 = 0 ∧
    exceptIsOk (get_ellipse_params_conic 1 2 1 0 0 (-1)) = true :=
  ⟨by norm_num, rfl⟩

/-- C3 amended: `get_ellipse_params` never reports an error for any conic
coefficients — parabolic (`B² - 4AC = 0`) and negative-radicand inputs
included: the closed-form values are computed and returned unconditionally
(numpy producing `inf`/`nan` silently at the degenerate inputs). -/
theorem degenerate_conic_amended (A B C D E F : ℝ) :
    get_ellipse_params_conic A B C D E F =
      Except.ok
        { conic := (A, B, C, D, E, F)
        , a := ellipse_a A B C D E F
        , b := ellipse_b A B C D E F
        , x0 := (2 * C * D - B * E) / (B ^ 2 - 4 * A * C)
        , y0 := (2 * A * E - B * D) / (B ^ 2 - 4 * A * C)
        , theta := 0.5 * atan2 (-B) (C - A)
        , ecc := Real.sqrt (1 - ellipse_b A B C D E F ^ 2 /
            ellipse_a A B C D E F ^ 2) } ∧
    exceptIsOk (get_ellipse_params_conic A B C D E F) = true :=
  ⟨rfl, rfl⟩

/-- The nested sheet lookup table `Calibration.__sheets` from
`ghost/calib.py` (lines 39-40): field strength (the float keys `3` and
`1.5`) maps to a table from contrast mechanism to logical sheet name; the
`1.5` entry has no `CuSO4` key. -/
noncomputable def sheetsFor (B0 : ℝ) : Option (List (String × String)) :=
  if B0 = 3 then
    some [("T1", "NiCl_3T"), ("T2", "MnCl_3T"), ("ADC", "ADC_3T"), ("CuSO4", "CuSO4_3T")]
  else if B0 = 1.5 then
    some [("T1", "NiCl_15T"), ("T2", "MnCl_15T"), ("ADC", "ADC_15T")]
  else none

/-- `self.__sheets[B0][mimics]`: `none` exactly when Python raises the inner
`KeyError` caught by `_get_vals`. -/
noncomputable def lookupSheet (B0 : ℝ) (mimics : String) : Option String :=
  (sheetsFor B0).bind (fun tbl => tbl.lookup mimics)

/-- The mechanisms actually available at a given field strength (the keys of
the inner dictionary) — what the spec says the error message should list. -/
noncomputable def availableMechanisms (B0 : ℝ) : List String :=
  ((sheetsFor B0).getD []).map Prod.fst

/-- Python's rendering of the field strength inside the f-string (the key
`3` is an int, `1.5` a float). -/
noncomputable def pyB0Str (B0 : ℝ) : String :=
  if B0 = 3 then "3" else if B0 = 1.5 then "1.5" else "?"

/-- The repr of `self.__sheets.keys()` interpolated into the error message:
the OUTER dictionary keys, i.e. the two field strengths. -/
def sheetsKeysRepr : String := "dict_keys([3, 1.5])"

/-- The message of the `KeyError` raised by `Calibration._get_vals`
(`ghost/calib.py` line 56) when `(B0, mimics)` is absent: the f-string
interpolates `mimics`, `B0` and `self.__sheets.keys()`. -/
noncomputable def keyErrorMessage (mimics : String) (B0 : ℝ) : String :=
  "Cannot find sheet for " ++ mimics ++ " at " ++ pyB0Str B0 ++
    "T. Available sheets are " ++ sheetsKeysRepr

/-- One row of a calibration sheet: temperature plus a value per column. -/
structure CalRow where
  temp : ℝ
  vals : String → ℝ

/-- `Calibration._get_vals(temp, mimics, column, B0)` from `ghost/calib.py`
(lines 42-62): looks up the sheet name in the nested dict, raising a
`KeyError` (a `LookupError` subclass) carrying the formatted message if the
pair is absent; otherwise selects the rows with matching temperature and
returns the `column + ' (ms)'` values. -/
noncomputable def get_vals (data : String → List CalRow) (temp : ℝ) (mimics : String)
    (column : String) (B0 : ℝ) : Except String (List ℝ) :=
  match lookupSheet B0 mimics with
  | none => .error (keyErrorMessage mimics B0)
  | some sheet => .ok (((data sheet).filter (fun r => decide (r.temp = temp))).map
      (fun r => r.vals (column ++ " (ms)")))

/-- `Calibration.get_T1_vals(temp, mimics, B0)`: delegates to `_get_vals`
with `column='T1'` (`ghost/calib.py` lines 89-103). -/
noncomputable def get_T1_vals (data : String → List CalRow) (temp : ℝ)
    (mimics : String) (B0 : ℝ) : Except String (List ℝ) :=
  get_vals data temp mimics "T1" B0

/-- Substring test (`sub` occurs contiguously in `s`). -/
def strContains (s sub : String) : Bool :=
  (List.range (s.length + 1)).any (fun i => sub.toList.isPrefixOf (s.toList.drop i))

/-- C8 counterexample: requesting CuSO4 values at 1.5 T does raise a
`KeyError` (a `LookupError`), but its message interpolates
`self.__sheets.keys()` — the outer dict keys `[3, 1.5]`, i.e. the available
FIELD STRENGTHS — and mentions none of the mechanisms actually available at
1.5 T (`T1`, `T2`, `ADC`), contradicting the claim that the message lists
the available mechanisms. -/
theorem calib_lookup_cex :
    get_T1_vals (fun _ => []) 20 "CuSO4" 1.5 =
      Except.error
        "Cannot find sheet for CuSO4 at 1.5T. Available sheets are dict_keys([3, 1.5])" ∧
    availableMechanisms 1.5 = ["T1", "T2", "ADC"] ∧
    strContains
      "Cannot find sheet for CuSO4 at 1.5T. Available sheets are dict_keys([3, 1.5])"
      "T1" = false ∧
    strContains
      "Cannot find sheet for CuSO4 at 1.5T. Available sheets are dict_keys([3, 1.5])"
      "T2" = false ∧
    strContains
      "Cannot find sheet for CuSO4 at 1.5T. Available sheets are dict_keys([3, 1.5])"
      "ADC" = false := by
  have hsheets : sheetsFor (1.5 : ℝ) =
      some [("T1", "NiCl_15T"), ("T2", "MnCl_15T"), ("ADC", "ADC_15T")] := by
    unfold sheetsFor
    rw [if_neg (by norm_num), if_pos rfl]
  have hlook : lookupSheet (1.5 : ℝ) "CuSO4" = none := by
    unfold lookupSheet
    rw [hsheets]
    rfl
  have hmsg : keyErrorMessage "CuSO4" (1.5 : ℝ) =
      "Cannot find sheet for CuSO4 at 1.5T. Available sheets are dict_keys([3, 1.5])" := by
    unfold keyErrorMessage pyB0Str
    rw [if_neg (by norm_num), if_pos rfl]
    rfl
  refine ⟨?_, ?_, by decide, by decide, by decide⟩
  · unfold get_T1_vals get_vals
    rw [hlook, hmsg]
  · unfold availableMechanisms
    rw [hsheets]
    rfl

/-- C8 amended: for every `(mechanism, field-strength)` pair absent from the
fixed sheet table, `_get_vals` (reached via `get_T1_vals`) raises a
`KeyError` (a `LookupError` subclass) whose message names the requested
mechanism and field strength and lists the OUTER sheet-dictionary keys —
the available field strengths `[3, 1.5]` — rather than the available
mechanisms. -/
theorem calib_lookup_amended (data : String → List CalRow) (temp : ℝ)
    (mimics : String) (B0 : ℝ) (h : lookupSheet B0 mimics = none) :
    get_T1_vals data temp mimics B0 = Except.error (keyErrorMessage mimics B0) := by
  unfold get_T1_vals get_vals
  rw [h]

theorem calib_lookup_amended_witness :
    lookupSheet (1.5 : ℝ) "CuSO4" = none ∧
    get_T1_vals (fun _ => []) 20 "CuSO4" 1.5 =
      Except.error (keyErrorMessage "CuSO4" 1.5) := by
  have hlook : lookupSheet (1.5 : ℝ) "CuSO4" = none := by
    unfold lookupSheet sheetsFor
    rw [if_neg (by norm_num), if_pos rfl]
    rfl
  exact ⟨hlook, calib_lookup_amended (fun _ => []) 20 "CuSO4" 1.5 hlook⟩

/-- `transform_points(points_df, inv_transformlist)` from `ghost/utils.py`
(lines 203-229).  The external collaborator
`ants.apply_transforms_to_points(3, points_df, transformlist)` is passed in
as the opaque function `xfm`.  The code subtracts row 0 of each column from
the remaining rows (`points_df['x'][1:] - points_df['x'][0]`, etc.), for
both the original and the transformed frame, and returns the stacked
displacement arrays `p0` and `p1`; indexing row 0 of an empty column raises
(modelled by `none`). -/
noncomputable def transform_points (df : PointsDf) (xfm : PointsDf → PointsDf) :
    Option ((List ℝ × List ℝ × List ℝ) × (List ℝ × List ℝ × List ℝ)) :=
  match df.x, df.y, df.z, (xfm df).x, (xfm df).y, (xfm df).z with
  | x0 :: xt, y0 :: yt, z0 :: zt, x1 :: xt1, y1 :: yt1, z1 :: zt1 =>
      some ((xt.map (fun v => v - x0), yt.map (fun v => v - y0), zt.map (fun v => v - z0)),
            (xt1.map (fun v => v - x1), yt1.map (fun v => v - y1), zt1.map (fun v => v - z1)))
  | _, _, _, _, _, _ => none

/-- The `(p0, p1)` pair returned by `transform_points` (empty if it failed). -/
noncomputable def tpOut (df : PointsDf) (xfm : PointsDf → PointsDf) :
    (List ℝ × List ℝ × List ℝ) × (List ℝ × List ℝ × List ℝ) :=
  (transform_points df xfm).getD (([], [], []), ([], [], []))

/-- C9: for every center-first point set with nonempty columns,
`transform_points` returns `p0` with `p0[i] = point[i+1] - point[0]`
(coordinate-wise) and `p1` with `p1[i] = transformed[i+1] - transformed[0]`;
in particular, when the external transform evaluator is the identity map,
`p0` and `p1` are identical. -/
theorem transform_displacement_spec (df : PointsDf) (xfm : PointsDf → PointsDf)
    (hx : df.x ≠ []) (hy : df.y ≠ []) (hz : df.z ≠ [])
    (hx1 : (xfm df).x ≠ []) (hy1 : (xfm df).y ≠ []) (hz1 : (xfm df).z ≠ []) :
    transform_points df xfm = some (tpOut df xfm) ∧
    (∀ i, i + 1 < df.x.length →
      (tpOut df xfm).1.1.getD i 0 = df.x.getD (i + 1) 0 - df.x.getD 0 0) ∧
    (∀ i, i + 1 < df.y.length →
      (tpOut df xfm).1.2.1.getD i 0 = df.y.getD (i + 1) 0 - df.y.getD 0 0) ∧
    (∀ i, i + 1 < df.z.length →
      (tpOut df xfm).1.2.2.getD i 0 = df.z.getD (i + 1) 0 - df.z.getD 0 0) ∧
    (∀ i, i + 1 < (xfm df).x.length →
      (tpOut df xfm).2.1.getD i 0 = (xfm df).x.getD (i + 1) 0 - (xfm df).x.getD 0 0) ∧
    (∀ i, i + 1 < (xfm df).y.length →
      (tpOut df xfm).2.2.1.getD i 0 = (xfm df).y.getD (i + 1) 0 - (xfm df).y.getD 0 0) ∧
    (∀ i, i + 1 < (xfm df).z.length →
      (tpOut df xfm).2.2.2.getD i 0 = (xfm df).z.getD (i + 1) 0 - (xfm df).z.getD 0 0) ∧
    (tpOut df (fun d => d)).1 = (tpOut df (fun d => d)).2 := by
  obtain ⟨x0, xt, hxe⟩ := List.exists_cons_of_ne_nil hx
  obtain ⟨y0, yt, hye⟩ := List.exists_cons_of_ne_nil hy
  obtain ⟨z0, zt, hze⟩ := List.exists_cons_of_ne_nil hz
  obtain ⟨x1, xt1, hxe1⟩ := List.exists_cons_of_ne_nil hx1
  obtain ⟨y1, yt1, hye1⟩ := List.exists_cons_of_ne_nil hy1
  obtain ⟨z1, zt1, hze1⟩ := List.exists_cons_of_ne_nil hz1
  have key : transform_points df xfm =
      some ((xt.map (fun v => v - x0), yt.map (fun v => v - y0), zt.map (fun v => v - z0)),
            (xt1.map (fun v => v - x1), yt1.map (fun v => v - y1),
              zt1.map (fun v => v - z1))) := by
    unfold transform_points
    rw [hxe, hye, hze, hxe1, hye1, hze1]
  have keyId : transform_points df (fun d => d) =
      some ((xt.map (fun v => v - x0), yt.map (fun v => v - y0), zt.map (fun v => v - z0)),
            (xt.map (fun v => v - x0), yt.map (fun v => v - y0),
              zt.map (fun v => v - z0))) := by
    unfold transform_points
    rw [show (fun (d : PointsDf) => d) df = df from rfl, hxe, hye, hze]
  have htp : tpOut df xfm =
      ((xt.map (fun v => v - x0), yt.map (fun v => v - y0), zt.map (fun v => v - z0)),
       (xt1.map (fun v => v - x1), yt1.map (fun v => v - y1),
         zt1.map (fun v => v - z1))) := by
    unfold tpOut
    rw [key]
    rfl
  refine ⟨by rw [key, htp], ?_, ?_, ?_, ?_, ?_, ?_, ?_⟩
  · intro i hi
    rw [htp, hxe]
    rw [hxe] at hi
    simp only [List.getD_cons_succ, List.getD_cons_zero]
    exact getD_map_of_lt _ xt i (by simpa using hi) 0 0
  · intro i hi
    rw [htp, hye]
    rw [hye] at hi
    simp only [List.getD_cons_succ, List.getD_cons_zero]
    exact getD_map_of_lt _ yt i (by simpa using hi) 0 0
  · intro i hi
    rw [htp, hze]
    rw [hze] at hi
    simp only [List.getD_cons_succ, List.getD_cons_zero]
    exact getD_map_of_lt _ zt i (by simpa using hi) 0 0
  · intro i hi
    rw [htp, hxe1]
    rw [hxe1] at hi
    simp only [List.getD_cons_succ, List.getD_cons_zero]
    exact getD_map_of_lt _ xt1 i (by simpa using hi) 0 0
  · intro i hi
    rw [htp, hye1]
    rw [hye1] at hi
    simp only [List.getD_cons_succ, List.getD_cons_zero]
    exact getD_map_of_lt _ yt1 i (by simpa using hi) 0 0
  · intro i hi
    rw [htp, hze1]
    rw [hze1] at hi
    simp only [List.getD_cons_succ, List.getD_cons_zero]
    exact getD_map_of_lt _ zt1 i (by simpa using hi) 0 0
  · unfold tpOut
    rw [keyId]
    rfl

theorem transform_displacement_spec_witness :
    (([0, 1] : List ℝ) ≠ []) ∧
    transform_points ⟨[0, 1], [0, 2], [0, 3]⟩ (fun d => d) =
      some (tpOut ⟨[0, 1], [0, 2], [0, 3]⟩ (fun d => d)) ∧
    (tpOut ⟨[0, 1], [0, 2], [0, 3]⟩ (fun d => d)).1 =
      (tpOut ⟨[0, 1], [0, 2], [0, 3]⟩ (fun d => d)).2 :=
  ⟨by simp,
   (transform_displacement_spec ⟨[0, 1], [0, 2], [0, 3]⟩ (fun d => d)
      (by simp) (by simp) (by simp) (by simp) (by simp) (by simp)).1,
   (transform_displacement_spec ⟨[0, 1], [0, 2], [0, 3]⟩ (fun d => d)
      (by simp) (by simp) (by simp) (by simp) (by simp) (by simp)).2.2.2.2.2.2.2⟩

/-- C6 counterexample: with `npoints = 2` and axis `x`, the code's second
boundary sample of the unit circle at the origin has `y`-coordinate
`cos(2π) = 1` (the parameter grid `np.linspace(0,1,n)` includes the endpoint
`t = 1`), whereas the claimed parameterization `angle = 2πk/n` would place
sample `k = 1` at angle `π` with `y`-coordinate `-1`; moreover that second
boundary sample exactly duplicates the first one (angle `2π` duplicates
angle `0`). -/
theorem linspace_endpoint_cex :
    (dfOf (gen_circle ⟨0, 0, 0⟩ 1 "x" 2)).y.getD 2 0 = 1 ∧
    Real.cos (2 * π * 1 / 2) = -1 ∧ ((1 : ℝ) ≠ -1) ∧
    (dfOf (gen_circle ⟨0, 0, 0⟩ 1 "x" 2)).y.getD 2 0 =
      (dfOf (gen_circle ⟨0, 0, 0⟩ 1 "x" 2)).y.getD 1 0 ∧
    (dfOf (gen_circle ⟨0, 0, 0⟩ 1 "x" 2)).z.getD 2 0 =
      (dfOf (gen_circle ⟨0, 0, 0⟩ 1 "x" 2)).z.getD 1 0 := by
  have hl : linspace01 2 = [0, 1] := by
    unfold linspace01
    norm_num [List.range_succ]
  have hy : (dfOf (gen_circle ⟨0, 0, 0⟩ 1 "x" 2)).y =
      [0, 1 * Real.cos (0 * 2 * π) + 0, 1 * Real.cos (1 * 2 * π) + 0] := by
    simp [gen_circle, dfOf, hl]
  have hz : (dfOf (gen_circle ⟨0, 0, 0⟩ 1 "x" 2)).z =
      [0, 1 * Real.sin (0 * 2 * π) + 0, 1 * Real.sin (1 * 2 * π) + 0] := by
    simp [gen_circle, dfOf, hl]
  refine ⟨?_, ?_, by norm_num, ?_, ?_⟩
  · rw [hy]
    show 1 * Real.cos (1 * 2 * π) + 0 = 1
    rw [show (1 : ℝ) * 2 * π = 2 * π by ring, Real.cos_two_pi]
    ring
  · rw [show (2 * π * 1 / 2 : ℝ) = π by ring, Real.cos_pi]
  · rw [hy]
    show 1 * Real.cos (1 * 2 * π) + 0 = 1 * Real.cos (0 * 2 * π) + 0
    rw [show (1 : ℝ) * 2 * π = 2 * π by ring, show (0 : ℝ) * 2 * π = 0 by ring,
      Real.cos_two_pi, Real.cos_zero]
  · rw [hz]
    show 1 * Real.sin (1 * 2 * π) + 0 = 1 * Real.sin (0 * 2 * π) + 0
    rw [show (1 : ℝ) * 2 * π = 2 * π by ring, show (0 : ℝ) * 2 * π = 0 by ring,
      Real.sin_two_pi, Real.sin_zero]

/-- C6 amended: the boundary samples of `gen_circle` and `get_ellipse` are
parameterized by `t = np.linspace(0,1,n)`, which INCLUDES both endpoints:
for `n ≥ 2` the k-th sample is at angle `2πk/(n-1)` (not `2πk/n`), and the
last sample (angle `2π`) exactly duplicates the first sample (angle `0`). -/
theorem boundary_angle_amended (c : Point3) (r a b θ x0 y0 : ℝ) (n k : ℕ)
    (hn : 2 ≤ n) (hk : k < n) :
    (linspace01 n).getD k 0 = (k : ℝ) / ((n : ℝ) - 1) ∧
    (dfOf (gen_circle c r "x" n)).y.getD (k + 1) 0 =
      r * Real.cos (2 * π * k / ((n : ℝ) - 1)) + c.y ∧
    (dfOf (gen_circle c r "x" n)).z.getD (k + 1) 0 =
      r * Real.sin (2 * π * k / ((n : ℝ) - 1)) + c.z ∧
    pointOf (dfOf (gen_circle c r "x" n)) n = pointOf (dfOf (gen_circle c r "x" n)) 1 ∧
    (get_ellipse a b θ x0 y0 n).1.getD k 0 =
      a * Real.cos (2 * π * k / ((n : ℝ) - 1)) * Real.cos θ -
        b * Real.sin θ * Real.sin (2 * π * k / ((n : ℝ) - 1)) + x0 := by
  have hlen := linspace01_length n
  have hkl : k < (linspace01 n).length := by omega
  have hang : ∀ j : ℕ, j < n →
      (linspace01 n).getD j 0 * 2 * π = 2 * π * j / ((n : ℝ) - 1) := by
    intro j hj
    rw [linspace01_getD n j hn hj]
    ring
  have hang' : ∀ j : ℕ, j < n →
      (linspace01 n).getD j 0 * π * 2 = 2 * π * j / ((n : ℝ) - 1) := by
    intro j hj
    rw [linspace01_getD n j hn hj]
    ring
  have hx : gen_circle c r "x" n =
      some { x := c.x :: (linspace01 n).map (fun _ => c.x)
           , y := c.y :: (linspace01 n).map (fun s => r * Real.cos (s * 2 * π) + c.y)
           , z := c.z :: (linspace01 n).map (fun s => r * Real.sin (s * 2 * π) + c.z) } := by
    simp [gen_circle]
  refine ⟨linspace01_getD n k hn hk, ?_, ?_, ?_, ?_⟩
  · rw [hx]
    simp only [dfOf, Option.getD_some, List.getD_cons_succ]
    rw [getD_map_of_lt _ _ _ hkl _ 0, hang k hk]
  · rw [hx]
    simp only [dfOf, Option.getD_some, List.getD_cons_succ]
    rw [getD_map_of_lt _ _ _ hkl _ 0, hang k hk]
  · obtain ⟨m, rfl⟩ : ∃ m, n = m + 1 := ⟨n - 1, by omega⟩
    have hn1 : m < (linspace01 (m + 1)).length := by omega
    have h0 : 0 < (linspace01 (m + 1)).length := by omega
    have hlast : (linspace01 (m + 1)).getD m 0 = 1 := by
      rw [linspace01_getD (m + 1) m hn (by omega)]
      have hc : (m : ℝ) = ((m + 1 : ℕ) : ℝ) - 1 := by push_cast; ring
      rw [hc]
      exact div_self (by
        have : (2 : ℝ) ≤ ((m + 1 : ℕ) : ℝ) := by exact_mod_cast hn
        linarith)
    have hfirst : (linspace01 (m + 1)).getD 0 0 = 0 := by
      rw [linspace01_getD (m + 1) 0 hn (by omega)]
      simp
    rw [hx]
    simp only [dfOf, Option.getD_some, pointOf, List.getD_cons_succ]
    rw [getD_map_of_lt _ _ _ hn1 _ 0, getD_map_of_lt _ _ _ hn1 _ 0,
      getD_map_of_lt _ _ _ hn1 _ 0, getD_map_of_lt _ _ _ h0 _ 0,
      getD_map_of_lt _ _ _ h0 _ 0, getD_map_of_lt _ _ _ h0 _ 0]
    rw [hlast, hfirst]
    rw [show (1 : ℝ) * 2 * π = 2 * π by ring, show (0 : ℝ) * 2 * π = 0 by ring,
      Real.cos_two_pi, Real.cos_zero, Real.sin_two_pi, Real.sin_zero]
  · unfold get_ellipse
    simp only
    rw [getD_map_of_lt _ _ _ (by rw [List.length_map]; exact hkl) _ 0,
      getD_map_of_lt _ _ _ hkl _ 0, hang' k hk]

theorem boundary_angle_amended_witness :
    2 ≤ 3 ∧ 1 < 3 ∧
    ((linspace01 3).getD 1 0 = (1 : ℝ) / ((3 : ℝ) - 1) ∧
     (dfOf (gen_circle ⟨0, 0, 0⟩ 1 "x" 3)).y.getD (1 + 1) 0 =
       1 * Real.cos (2 * π * 1 / ((3 : ℝ) - 1)) + Point3.y ⟨0, 0, 0⟩ ∧
     (dfOf (gen_circle ⟨0, 0, 0⟩ 1 "x" 3)).z.getD (1 + 1) 0 =
       1 * Real.sin (2 * π * 1 / ((3 : ℝ) - 1)) + Point3.z ⟨0, 0, 0⟩ ∧
     pointOf (dfOf (gen_circle ⟨0, 0, 0⟩ 1 "x" 3)) 3 =
       pointOf (dfOf (gen_circle ⟨0, 0, 0⟩ 1 "x" 3)) 1 ∧
     (get_ellipse 5 3 0 1 (-2) 3).1.getD 1 0 =
       5 * Real.cos (2 * π * 1 / ((3 : ℝ) - 1)) * Real.cos 0 -
         3 * Real.sin 0 * Real.sin (2 * π * 1 / ((3 : ℝ) - 1)) + 1) :=
  ⟨by norm_num, by norm_num, by
    have h := boundary_angle_amended ⟨0, 0, 0⟩ 1 5 3 0 1 (-2) 3 1 (by norm_num) (by norm_num)
    push_cast at h
    exact h⟩
